import Mathlib

/-!
A shallow embedding of the rate-aggregation core of `backend/server.py`:
the four document-scraping source adapters (`scrape_ahlatci`,
`scrape_haremaltin`, `scrape_hakandoviz`, `scrape_carsidoviz`), the
concurrent fan-out and reassembly inside `get_rates`, the TTL/single-flight
refresh cache (`rates_cache`), and the forced-refresh endpoint
(`refresh_rates`).

Modelling conventions:
* A rendered page (the BeautifulSoup document) is given to each adapter as
  plain data: for table-based adapters a list of rows, each row the list of
  stripped cell texts of its `td`/`th` elements; for Hakan Döviz a list of
  stripped `li` texts; for Çarşı Döviz additionally the list of
  `div`/`span`/`p` nodes with their text and (optional) parent text.
  `Option` at the outside models `scrape_with_playwright` returning `None`
  on any transport/render failure.
* Python string methods (`replace`, `split`, slicing, `upper`, `in`) are
  re-implemented structurally over `List Char` so that every definition is
  kernel-reducible; semantics (left-to-right non-overlapping replacement,
  split on every separator occurrence, clamped slices) match Python's.
* Python `float()` is modelled on unsigned decimal tokens (the only shape
  scraped price cells take after the adapters' own `replace` calls); a
  string that is not of that shape parses to `none`, exactly where Python
  raises `ValueError` and the adapter's `try/except` discards the quote.
* Python dicts keyed by currency code become association lists with
  insert-or-overwrite (`dictInsert`) and membership (`dictContains`).
* Timestamps produced by `datetime.now(timezone.utc).isoformat()` are an
  opaque string parameter `ts`; `time.time()` values are rationals.
* asyncio's single-threaded event loop runs the code of `get_rates` between
  two `await` points atomically; the only suspension point is the
  `await asyncio.gather(...)`.  The cache protocol is therefore modelled as
  an atomic entry step (`enterStep`, everything before the gather) and an
  atomic commit step (the code after the gather, inside `doRefresh`).
-/

namespace Kur

/-- Split `s` around the first occurrence of `pat`: `some (before, after)`
with `s = before ++ pat ++ after`, or `none` when `pat` does not occur. -/
def splitFirst (pat : List Char) : List Char → Option (List Char × List Char)
  | [] => if pat.isEmpty then some ([], []) else none
  | c :: rest =>
      if pat.isPrefixOf (c :: rest) then some ([], (c :: rest).drop pat.length)
      else
        match splitFirst pat rest with
        | some (b, a) => some (c :: b, a)
        | none => none

/-- Fuelled worker for `pyReplace`; the fuel bounds the number of
replacements, which is at most the length of the subject string. -/
def pyReplaceAux (pat rep : List Char) : Nat → List Char → List Char
  | 0, s => s
  | fuel + 1, s =>
      match splitFirst pat s with
      | some (b, a) => b ++ rep ++ pyReplaceAux pat rep fuel a
      | none => s

/-- Python `s.replace(pat, rep)` for non-empty `pat`: replace every
occurrence, scanning left to right without overlap. -/
def pyReplace (s pat rep : String) : String :=
  String.mk (pyReplaceAux pat.toList rep.toList (s.length + 1) s.toList)

/-- Fuelled worker for `pySplit`. -/
def pySplitAux (sep : List Char) : Nat → List Char → List (List Char)
  | 0, s => [s]
  | fuel + 1, s =>
      match splitFirst sep s with
      | some (b, a) => b :: pySplitAux sep fuel a
      | none => [s]

/-- Python `s.split(sep)` for non-empty `sep`: in particular
`"".split(sep) = [""]` and adjacent separators yield empty fields. -/
def pySplit (s sep : String) : List String :=
  (pySplitAux sep.toList (s.length + 1) s.toList).map String.mk

/-- Python slice `s[:n]` (clamped). -/
def strTake (s : String) (n : Nat) : String := String.mk (s.toList.take n)

/-- Python slice `s[n:]` (clamped). -/
def strDrop (s : String) (n : Nat) : String := String.mk (s.toList.drop n)

/-- Python `s.upper()` (ASCII case mapping; the verified properties do not
depend on the casing of non-ASCII letters). -/
def strUpper (s : String) : String := String.mk (s.toList.map Char.toUpper)

/-- Python `pat in s` on strings: contiguous-substring test. -/
def strContains (s pat : String) : Bool :=
  (splitFirst pat.toList s.toList).isSome

/-- Numeric value of a digit string, read in base 10. -/
def digitsVal (s : String) : Nat :=
  s.toList.foldl (fun n c => 10 * n + (c.toNat - 48)) 0

/-- Every character of `s` is an ASCII digit. -/
def isDigitStr (s : String) : Bool :=
  s.toList.all Char.isDigit

/-- Models the Python builtin `float()` on the unsigned decimal tokens the
adapters feed it: an optional integer part, at most one dot, an optional
fractional part, at least one digit overall.  Any other string (two dots, a
remaining comma, spaces, empty) is `none`, the shapes on which Python
raises `ValueError` and the adapters' `try/except` skips the quote. -/
def pyFloat (s : String) : Option ℚ :=
  match pySplit s "." with
  | [a] =>
      if 0 < a.length && isDigitStr a then some (mkRat (digitsVal a) 1)
      else none
  | [a, b] =>
      if (0 < a.length || 0 < b.length) && isDigitStr a && isDigitStr b then
        some (mkRat (digitsVal a * 10 ^ b.length + digitsVal b) (10 ^ b.length))
      else none
  | _ => none

/-- One buy/sell quote (`ExchangeRate` pydantic model in the source). -/
structure ExchangeRate where
  currency : String
  buy : ℚ
  sell : ℚ
deriving DecidableEq

/-- The `rates` dict of a source: currency code ↦ quote, insertion order. -/
abbrev RatesDict := List (String × ExchangeRate)

/-- Python `currency in rates`. -/
def dictContains (d : RatesDict) (k : String) : Bool :=
  d.any (fun p => p.1 == k)

/-- Python `rates[currency] = quote`: overwrite in place, else append. -/
def dictInsert (d : RatesDict) (k : String) (v : ExchangeRate) : RatesDict :=
  if dictContains d k then d.map (fun p => if p.1 == k then (k, v) else p)
  else d ++ [(k, v)]

/-- One source's block of the response (`SourceRates` pydantic model). -/
structure SourceRates where
  source : String
  url : String
  rates : RatesDict
  last_updated : String
  status : String
  error_message : Option String
deriving DecidableEq

/-- The aggregated response (`AllRatesResponse` pydantic model). -/
structure AllRatesResponse where
  sources : List SourceRates
  timestamp : String
deriving DecidableEq

/-- The currency list iterated by `scrape_ahlatci`. -/
def CURRENCIES : List String := ["USD", "EUR", "GBP", "CHF", "XAU"]

/-- Ahlatcı's conversion of one price cell to a number:
`float(cell.get_text(strip=True).replace(',', '.'))`. -/
def ahlatciParseNum (s : String) : Option ℚ :=
  pyFloat (pyReplace s "," ".")

/-- The body of `scrape_ahlatci`'s inner `for currency in [...]` loop for
one row (`cols` the row's stripped cell texts). -/
def ahlatciStep (cols : List String) (r : RatesDict) (currency : String) :
    RatesDict :=
  if 3 ≤ cols.length ∧ cols.getD 0 "" = currency then
    match ahlatciParseNum (cols.getD 1 ""), ahlatciParseNum (cols.getD 2 "") with
    | some buy, some sell =>
        if 0 < buy ∧ 0 < sell then
          dictInsert r currency ⟨currency, buy, sell⟩
        else r
    | _, _ => r
  else r

/-- `scrape_ahlatci`'s `for row in rows` body. -/
def ahlatciRow (r : RatesDict) (cols : List String) : RatesDict :=
  CURRENCIES.foldl (ahlatciStep cols) r

/-- The `try` block of `scrape_ahlatci`: page load failure raises
`Exception("Failed to load page")`, otherwise the rows are scanned. -/
def scrape_ahlatci_body (page : Option (List (List String))) :
    Except String RatesDict :=
  match page with
  | none => Except.error "Failed to load page"
  | some rows => Except.ok (rows.foldl ahlatciRow [])

/-- Assembly shared by all four adapters: on normal completion
`status="success" if rates else "error"` with `error_message="No rates
found"` when empty; the adapter's own `except` handler converts any raised
exception into an error `SourceRates` with empty `rates`. -/
def finishScrape (name url ts : String) (body : Except String RatesDict) :
    SourceRates :=
  match body with
  | Except.ok rates =>
      { source := name, url := url, rates := rates, last_updated := ts
        status := if rates.isEmpty then "error" else "success"
        error_message := if rates.isEmpty then some "No rates found" else none }
  | Except.error e =>
      { source := name, url := url, rates := [], last_updated := ts
        status := "error", error_message := some e }

/-- `scrape_ahlatci`: never raises; total in the page and the timestamp. -/
def scrape_ahlatci (page : Option (List (List String))) (ts : String) :
    SourceRates :=
  finishScrape "Ahlatcı Döviz" "https://www.ahlatcidoviz.com.tr" ts
    (scrape_ahlatci_body page)

example :
    (scrape_ahlatci (some [["USD", "41,50", "41,80"]]) "t").rates =
      [("USD", ⟨"USD", mkRat 4150 100, mkRat 4180 100⟩)] := by decide

example : (scrape_ahlatci none "t").status = "error" := by decide

example : ahlatciParseNum "1.234,56" = none := by decide

/-- Harem Altın's conversion of one FX price cell:
`float(cell.replace(',', '.').replace(' ', ''))`. -/
def haremFxParseNum (s : String) : Option ℚ :=
  pyFloat (pyReplace (pyReplace s "," ".") " " "")

/-- Harem Altın's conversion of one gold price cell: first
`cell.replace(' ', '')`, then `.replace('.', '').replace(',', '.')`
(dot as thousands separator, comma as decimal separator). -/
def haremGoldParseNum (s : String) : Option ℚ :=
  pyFloat (pyReplace (pyReplace (pyReplace s " " "") "." "") "," ".")

/-- The body of `scrape_haremaltin`'s `for currency in [USD,EUR,GBP,CHF]`
loop for one row whose first cell uppercases to `code_text`. -/
def haremFxStep (code_text : String) (cols : List String) (r : RatesDict)
    (currency : String) : RatesDict :=
  if code_text = currency ∨ strContains code_text (currency ++ "/TRY")
      ∨ strContains code_text currency then
    match haremFxParseNum (cols.getD 1 ""), haremFxParseNum (cols.getD 2 "") with
    | some buy, some sell =>
        if 0 < buy ∧ 0 < sell ∧ ¬ dictContains r currency then
          dictInsert r currency ⟨currency, buy, sell⟩
        else r
    | _, _ => r
  else r

/-- The gold branch of `scrape_haremaltin`'s row loop: rows whose label
contains `GOLD TRY` (spaces ignored), guarded by the `> 100` sanity check. -/
def haremGoldStep (code_text : String) (cols : List String) (r : RatesDict) :
    RatesDict :=
  if strContains (pyReplace code_text " " "") "GOLDTRY"
      ∧ ¬ dictContains r "XAU" then
    match haremGoldParseNum (cols.getD 1 ""), haremGoldParseNum (cols.getD 2 "")
      with
    | some buy, some sell =>
        if 100 < buy ∧ 100 < sell then dictInsert r "XAU" ⟨"XAU", buy, sell⟩
        else r
    | _, _ => r
  else r

/-- `scrape_haremaltin`'s `for row in rows` body: the FX loop followed by
the gold check, both only when the row has at least three cells. -/
def haremRow (r : RatesDict) (cols : List String) : RatesDict :=
  if 3 ≤ cols.length then
    let code_text := strUpper (cols.getD 0 "")
    haremGoldStep code_text cols
      (["USD", "EUR", "GBP", "CHF"].foldl (haremFxStep code_text cols) r)
  else r

/-- The `try` block of `scrape_haremaltin`. -/
def scrape_haremaltin_body (page : Option (List (List String))) :
    Except String RatesDict :=
  match page with
  | none => Except.error "Failed to load page"
  | some rows => Except.ok (rows.foldl haremRow [])

/-- `scrape_haremaltin`: never raises; total in the page and timestamp. -/
def scrape_haremaltin (page : Option (List (List String))) (ts : String) :
    SourceRates :=
  finishScrape "Harem Altın" "https://www.haremaltin.com/?lang=en" ts
    (scrape_haremaltin_body page)

example :
    (scrape_haremaltin (some [["GOLD TRY", "6.070,20", "6.141,00"]]) "t").rates
      = [("XAU", ⟨"XAU", mkRat 607020 100, mkRat 614100 100⟩)] := by decide

/-- The FX branch of `scrape_hakandoviz`'s `for li in lis` loop for one
`li` text, one slash-pair at a time: strip the pair token, split the rest
on commas, and reassemble buy/sell with four decimal digits each. -/
def hakanFxStep (text : String) (r : RatesDict) (currency : String) :
    RatesDict :=
  if strContains text currency then
    let remaining := pyReplace text currency ""
    let parts := pySplit remaining ","
    if 2 ≤ parts.length then
      let buy_str :=
        if 4 ≤ (parts.getD 1 "").length then
          parts.getD 0 "" ++ "." ++ strTake (parts.getD 1 "") 4
        else parts.getD 0 ""
      let sell_str :=
        if 4 < (parts.getD 1 "").length then
          let sell_part1 := strDrop (parts.getD 1 "") 4
          if 2 < parts.length then
            sell_part1 ++ "." ++ strTake (parts.getD 2 "") 4
          else sell_part1
        else parts.getD 1 ""
      match pyFloat (pyReplace buy_str "," "."),
          pyFloat (pyReplace sell_str "," ".") with
      | some buy, some sell =>
          let curr_code := (pySplit currency "/").getD 0 ""
          if 0 < buy ∧ 0 < sell ∧ ¬ dictContains r curr_code then
            dictInsert r curr_code ⟨curr_code, buy, sell⟩
          else r
      | _, _ => r
    else r
  else r

/-- The gold branch of `scrape_hakandoviz`'s `li` loop: texts containing
`HAS/TRY`, reassembled as two decimal digits each, `> 100` sanity check. -/
def hakanGoldStep (text : String) (r : RatesDict) : RatesDict :=
  if strContains text "HAS/TRY" ∧ ¬ dictContains r "XAU" then
    let remaining := pyReplace text "HAS/TRY" ""
    let parts := pySplit remaining ","
    if 3 ≤ parts.length then
      let buy_str :=
        pyReplace (parts.getD 0 "") "." "" ++ "." ++ strTake (parts.getD 1 "") 2
      let sell_str :=
        pyReplace (strDrop (parts.getD 1 "") 2) "." "" ++ "."
          ++ strTake (parts.getD 2 "") 2
      match pyFloat buy_str, pyFloat sell_str with
      | some buy, some sell =>
          if 100 < buy ∧ 100 < sell then dictInsert r "XAU" ⟨"XAU", buy, sell⟩
          else r
      | _, _ => r
    else r
  else r

/-- `scrape_hakandoviz`'s `for li in lis` body. -/
def hakanLi (r : RatesDict) (text : String) : RatesDict :=
  hakanGoldStep text
    (["USD/TRY", "EUR/TRY", "GBP/TRY", "CHF/TRY"].foldl (hakanFxStep text) r)

/-- The `try` block of `scrape_hakandoviz`. -/
def scrape_hakandoviz_body (page : Option (List String)) :
    Except String RatesDict :=
  match page with
  | none => Except.error "Failed to load page"
  | some lis => Except.ok (lis.foldl hakanLi [])

/-- `scrape_hakandoviz`: never raises; total in the page and timestamp. -/
def scrape_hakandoviz (page : Option (List String)) (ts : String) :
    SourceRates :=
  finishScrape "Hakan Döviz" "https://www.hakandoviz.com/canli-piyasalar" ts
    (scrape_hakandoviz_body page)

example :
    (scrape_hakandoviz (some ["USD/TRY41,821442,0130"]) "t").rates =
      [("USD", ⟨"USD", mkRat 418214 10000, mkRat 420130 10000⟩)] := by decide

example :
    (scrape_hakandoviz (some ["HAS/TRY6.090,006.141,00"]) "t").rates =
      [("XAU", ⟨"XAU", mkRat 609000 100, mkRat 614100 100⟩)] := by decide

/-- `scrape_carsidoviz`'s `currency_mapping` dict, in insertion order
(Python dict iteration order). -/
def currency_mapping : List (String × String) :=
  [("DOLAR", "USD"), ("USD", "USD"), ("EURO", "EUR"), ("EUR", "EUR"),
   ("STERLİN", "GBP"), ("STERLIN", "GBP"), ("GBP", "GBP"),
   ("İSVİÇRE FRANGI", "CHF"), ("CHF", "CHF"), ("ALTIN", "XAU"),
   ("XAU", "XAU")]

/-- The `for turkish_name, english_code in currency_mapping.items()` scan
with `break` on first hit: the first mapping entry whose Turkish name is a
substring of the row label. -/
def firstMapped (code : String) : Option String :=
  (currency_mapping.find? (fun p => strContains code p.1)).map (fun p => p.2)

/-- Çarşı's conversion of one price cell:
`float(cell.replace(',', '.').replace(' ', ''))`. -/
def carsiParseNum (s : String) : Option ℚ :=
  pyFloat (pyReplace (pyReplace s "," ".") " " "")

/-- Strategy 1 of `scrape_carsidoviz`: one table row. -/
def carsiRow (r : RatesDict) (cols : List String) : RatesDict :=
  if 3 ≤ cols.length then
    let code := strUpper (cols.getD 0 "")
    match firstMapped code with
    | some mapped =>
        if ¬ dictContains r mapped then
          match carsiParseNum (cols.getD 1 ""), carsiParseNum (cols.getD 2 "")
            with
          | some buy, some sell =>
              if 0 < buy ∧ 0 < sell then
                dictInsert r mapped ⟨mapped, buy, sell⟩
              else r
          | _, _ => r
        else r
    | none => r
  else r

/-- A `div`/`span`/`p` node as strategy 2 sees it: its own stripped text
and, when the node has a parent, the parent's stripped text. -/
structure DivNode where
  text : String
  parent : Option String
deriving DecidableEq

/-- `re.findall(r'(\d\x7b2\x7d[.,]\d\x7b4\x7d)', text)`: all non-overlapping
matches of two digits, one `.`/`,` separator, four digits, scanning left to
right. -/
def findRateTokens : List Char → List String
  | a :: b :: s :: d1 :: d2 :: d3 :: d4 :: tail =>
      if a.isDigit && b.isDigit && (s == '.' || s == ',') && d1.isDigit
          && d2.isDigit && d3.isDigit && d4.isDigit then
        String.mk [a, b, s, d1, d2, d3, d4]
          :: findRateTokens tail
      else findRateTokens (b :: s :: d1 :: d2 :: d3 :: d4 :: tail)
  | _ => []

/-- Strategy 2 of `scrape_carsidoviz`, inner mapping loop for one node. -/
def carsiDivStep (node : DivNode) (r : RatesDict) (entry : String × String) :
    RatesDict :=
  if strContains (strUpper node.text) entry.1 ∧ ¬ dictContains r entry.2 then
    match node.parent with
    | some parent_text =>
        let numbers := findRateTokens parent_text.toList
        if 2 ≤ numbers.length then
          match pyFloat (pyReplace (numbers.getD 0 "") "," "."),
              pyFloat (pyReplace (numbers.getD 1 "") "," ".") with
          | some buy, some sell =>
              if 0 < buy ∧ 0 < sell then
                dictInsert r entry.2 ⟨entry.2, buy, sell⟩
              else r
          | _, _ => r
        else r
    | none => r
  else r

/-- Strategy 2 of `scrape_carsidoviz`: one node against every mapping. -/
def carsiDiv (r : RatesDict) (node : DivNode) : RatesDict :=
  currency_mapping.foldl (carsiDivStep node) r

/-- The `try` block of `scrape_carsidoviz`: table rows first; the div scan
runs only when the table scan produced nothing. -/
def scrape_carsidoviz_body
    (page : Option (List (List String) × List DivNode)) :
    Except String RatesDict :=
  match page with
  | none => Except.error "Failed to load page"
  | some (rows, divs) =>
      let rates := rows.foldl carsiRow []
      Except.ok (if rates.isEmpty then divs.foldl carsiDiv rates else rates)

/-- `scrape_carsidoviz`: never raises; total in the page and timestamp. -/
def scrape_carsidoviz (page : Option (List (List String) × List DivNode))
    (ts : String) : SourceRates :=
  finishScrape "Çarşı Döviz" "https://carsidoviz.com" ts
    (scrape_carsidoviz_body page)

example :
    (scrape_carsidoviz (some ([["DOLAR", "41,50", "41,80"]], [])) "t").rates =
      [("USD", ⟨"USD", mkRat 4150 100, mkRat 4180 100⟩)] := by decide

example :
    (scrape_carsidoviz
      (some ([], [⟨"dolar", some "USD 41,5012 41,8034"⟩])) "t").rates =
      [("USD", ⟨"USD", mkRat 415012 10000, mkRat 418034 10000⟩)] := by decide

example : (scrape_carsidoviz (some ([], [])) "t").status = "error" := by decide

/-- `source_names` of `get_rates`: the fixed declared source order. -/
def source_names : List String :=
  ["Ahlatcı Döviz", "Harem Altın", "Hakan Döviz", "Çarşı Döviz"]

/-- `urls` of `get_rates`, aligned with `source_names`. -/
def source_urls : List String :=
  ["https://www.ahlatcidoviz.com.tr", "https://www.haremaltin.com/?lang=en",
   "https://www.hakandoviz.com/canli-piyasalar", "https://carsidoviz.com"]

/-- The `for i, result in enumerate(results)` body of `get_rates`: an
exception coming back from the gather is converted to a synthetic error
`SourceRates` carrying the source's static name and URL. -/
def settle (ts : String) (i : Nat) (res : Except String SourceRates) :
    SourceRates :=
  match res with
  | Except.ok s => s
  | Except.error msg =>
      { source := source_names.getD i "", url := source_urls.getD i ""
        rates := [], last_updated := ts, status := "error"
        error_message := some msg }

/-- `final_results`/`AllRatesResponse` assembly of `get_rates`. -/
def assemble (results : List (Except String SourceRates)) (ts : String) :
    AllRatesResponse :=
  ⟨results.enum.map (fun p => settle ts p.1 p.2), ts⟩

/-- The `asyncio.gather(..., return_exceptions=True)` fan-out: the four
scrapers in declared argument order.  Each scraper is total (its own
`except` handler absorbs every failure), so every slot is `Except.ok`;
`settle` still guards the hypothetical exception slot exactly as the
Python loop does. -/
def orchestrate (p1 p2 : Option (List (List String)))
    (p3 : Option (List String))
    (p4 : Option (List (List String) × List DivNode)) (ts : String) :
    List (Except String SourceRates) :=
  [Except.ok (scrape_ahlatci p1 ts), Except.ok (scrape_haremaltin p2 ts),
   Except.ok (scrape_hakandoviz p3 ts), Except.ok (scrape_carsidoviz p4 ts)]

/-- The module-level `rates_cache` dict (`data`, `last_updated`,
`cache_duration`, `updating`). -/
structure RatesCache where
  data : Option AllRatesResponse
  last_updated : ℚ
  cache_duration : ℚ
  updating : Bool
deriving DecidableEq

/-- What one caller's atomic pre-gather section of `get_rates` produces:
either an immediate response from the cache, or the decision to refresh
(falling through to the `await asyncio.gather`). -/
inductive EnterOutcome
  | served (r : AllRatesResponse)
  | refreshing
deriving DecidableEq

/-- The code of `get_rates` from entry to the `await asyncio.gather`,
which asyncio runs atomically: the freshness check (`data` truthy and
`now - last_updated < cache_duration`), the stale-while-updating check
(`updating` truthy and `data` truthy), and otherwise `updating = True`
with fall-through to the refresh. -/
def enterStep (c : RatesCache) (now : ℚ) : EnterOutcome × RatesCache :=
  match c.data with
  | some d =>
      if now - c.last_updated < c.cache_duration then (EnterOutcome.served d, c)
      else if c.updating then (EnterOutcome.served d, c)
      else (EnterOutcome.refreshing, { c with updating := true })
  | none => (EnterOutcome.refreshing, { c with updating := true })

/-- The code of `get_rates` after the gather resumes, also atomic: on a
gather result, assemble the response, store it with `last_updated` set to
the `current_time` read at entry, clear `updating` (the `finally`), and
return it; if the gather itself raised, clear `updating` and re-raise
(the outer `except` turns it into `HTTPException(500)`). -/
def doRefresh (c : RatesCache) (entry_time : ℚ)
    (orch : Except String (List (Except String SourceRates))) (ts : String) :
    Except String AllRatesResponse × RatesCache :=
  match orch with
  | Except.error e => (Except.error e, { c with updating := false })
  | Except.ok results =>
      let response := assemble results ts
      (Except.ok response,
        { c with
            data := some response
            last_updated := entry_time
            updating := false })

/-- `get_rates` for a single caller, as a function of the cache state, the
`time.time()` value read at entry, the gather's outcome (a parameter used
only on the refresh path, so independence from it is exactly "no
orchestration happened"), and the response timestamp. -/
def get_rates (c : RatesCache) (now : ℚ)
    (orch : Except String (List (Except String SourceRates))) (ts : String) :
    Except String AllRatesResponse × RatesCache :=
  match enterStep c now with
  | (EnterOutcome.served d, c2) => (Except.ok d, c2)
  | (EnterOutcome.refreshing, c2) => doRefresh c2 now orch ts

/-- `refresh_rates` ("Force refresh rates from all sources"): its entire
body is `return await get_rates()`. -/
def refresh_rates (c : RatesCache) (now : ℚ)
    (orch : Except String (List (Except String SourceRates))) (ts : String) :
    Except String AllRatesResponse × RatesCache :=
  get_rates c now orch ts

/-- N concurrent callers' pre-gather sections, executed in arrival order
(asyncio interleaves whole atomic sections, so any interleaving of the
callers' entries is some arrival order); returns the cache state after all
entries and each caller's outcome. -/
def runEnters : RatesCache → List ℚ → RatesCache × List EnterOutcome
  | c, [] => (c, [])
  | c, t :: rest =>
      match enterStep c t with
      | (o, c2) =>
          match runEnters c2 rest with
          | (c3, os) => (c3, o :: os)

/-- The outcome is a fall-through to the orchestration. -/
def isRefreshing : EnterOutcome → Bool
  | EnterOutcome.refreshing => true
  | EnterOutcome.served _ => false

/-- `.`/`,`: the two locale separator characters. -/
def isSepChar (c : Char) : Bool := c == '.' || c == ','

/-- Position of the last separator: `some (before, after)` with the final
`.`/`,` between them, `none` when the token has no separator. -/
def splitAtLastSep (cs : List Char) : Option (List Char × List Char) :=
  match cs.reverse.findIdx? isSepChar with
  | some i =>
      some ((cs.reverse.drop (i + 1)).reverse, (cs.reverse.take i).reverse)
  | none => none

/-- Modelled from the spec: the deterministic locale rule for numeric
tokens — "if a numeric token has exactly one group of 1–2 fractional
digits it is treated as the decimal separator; grouping separators are
stripped first".  The trailing group after the last separator, when it is
1–2 digits, is the decimal part and every other separator is a stripped
grouping separator; otherwise all separators are grouping separators.
This definition exists only to be compared with the conversions the
scrapers actually perform. -/
def specNormalize (s : String) : Option ℚ :=
  let cs := s.toList
  match splitAtLastSep cs with
  | some (before, after) =>
      if (after.length = 1 ∨ after.length = 2) ∧ after.all Char.isDigit then
        pyFloat (String.mk
          ((before.filter (fun c => !(isSepChar c))) ++ '.' :: after))
      else pyFloat (String.mk (cs.filter (fun c => !(isSepChar c))))
  | none => pyFloat s

example : specNormalize "1.234,56" = some (mkRat 123456 100) := by decide

example : specNormalize "1,234.56" = some (mkRat 123456 100) := by decide

example : runEnters ⟨none, 0, 5, false⟩ [10, 10] =
    (⟨none, 0, 5, true⟩, [EnterOutcome.refreshing, EnterOutcome.refreshing]) :=
  by decide

/-! ## Invariant infrastructure -/

/-- Everything in `dictInsert d k v` is an old entry or the new `(k, v)`. -/
theorem mem_dictInsert {d : RatesDict} {k : String} {v : ExchangeRate}
    {p : String × ExchangeRate} (hp : p ∈ dictInsert d k v) :
    p ∈ d ∨ p = (k, v) := by
  unfold dictInsert at hp
  split at hp
  · rcases List.mem_map.mp hp with ⟨q, hq, hfq⟩
    by_cases hk : q.1 == k
    · right; rw [if_pos hk] at hfq; exact hfq.symm
    · left; rw [if_neg hk] at hfq; exact hfq ▸ hq
  · rcases List.mem_append.mp hp with h | h
    · exact Or.inl h
    · right
      simpa using h

/-- A fold preserves an invariant preserved by every step on a list
element. -/
theorem foldl_preserve_mem {α β : Type} (P : β → Prop) (f : β → α → β) :
    ∀ (l : List α), (∀ b a, a ∈ l → P b → P (f b a)) →
      ∀ b, P b → P (l.foldl f b)
  | [], _, _, hb => hb
  | a :: l, hf, b, hb =>
      foldl_preserve_mem P f l
        (fun b2 a2 ha2 hb2 => hf b2 a2 (List.mem_cons_of_mem a ha2) hb2)
        (f b a) (hf b a (List.mem_cons_self a l) hb)

/-- Every stored quote has strictly positive buy and sell (claim C3's
invariant on a rates dict). -/
def QuotesPos (d : RatesDict) : Prop :=
  ∀ p ∈ d, 0 < p.2.buy ∧ 0 < p.2.sell

/-- Every stored gold quote has buy and sell above 100 (claim C10's
invariant on a rates dict). -/
def GoldOver100 (d : RatesDict) : Prop :=
  ∀ p ∈ d, p.1 = "XAU" → 100 < p.2.buy ∧ 100 < p.2.sell

theorem quotesPos_nil : QuotesPos [] := fun p hp => absurd hp (List.not_mem_nil p)

theorem goldOver100_nil : GoldOver100 [] :=
  fun p hp => absurd hp (List.not_mem_nil p)

theorem quotesPos_insert {d : RatesDict} {k : String} {v : ExchangeRate}
    (hd : QuotesPos d) (hv : 0 < v.buy ∧ 0 < v.sell) :
    QuotesPos (dictInsert d k v) := by
  intro p hp
  rcases mem_dictInsert hp with h | h
  · exact hd p h
  · rw [h]; exact hv

theorem goldOver100_insert_other {d : RatesDict} {k : String}
    {v : ExchangeRate} (hd : GoldOver100 d) (hk : k ≠ "XAU") :
    GoldOver100 (dictInsert d k v) := by
  intro p hp
  rcases mem_dictInsert hp with h | h
  · exact hd p h
  · intro hx; rw [h] at hx; exact absurd hx hk

theorem goldOver100_insert_xau {d : RatesDict} {k : String} {v : ExchangeRate}
    (hd : GoldOver100 d) (hv : 100 < v.buy ∧ 100 < v.sell) :
    GoldOver100 (dictInsert d k v) := by
  intro p hp
  rcases mem_dictInsert hp with h | h
  · exact hd p h
  · intro _; rw [h]; exact hv

/-! ## Positivity of stored quotes (per adapter) -/

theorem ahlatciStep_pos (cols : List String) (currency : String)
    {r : RatesDict} (h : QuotesPos r) :
    QuotesPos (ahlatciStep cols r currency) := by
  unfold ahlatciStep
  split <;> try exact h
  split <;> try exact h
  split <;> try exact h
  rename_i hpos
  exact quotesPos_insert h hpos

theorem ahlatciRow_pos (cols : List String) {r : RatesDict}
    (h : QuotesPos r) : QuotesPos (ahlatciRow r cols) :=
  foldl_preserve_mem QuotesPos (ahlatciStep cols) CURRENCIES
    (fun _ a _ hb => ahlatciStep_pos cols a hb) r h

theorem scrape_ahlatci_pos (page : Option (List (List String)))
    (ts : String) : QuotesPos (scrape_ahlatci page ts).rates := by
  cases page with
  | none => exact quotesPos_nil
  | some rows =>
      show QuotesPos (rows.foldl ahlatciRow [])
      exact foldl_preserve_mem QuotesPos ahlatciRow rows
        (fun _ a _ hb => ahlatciRow_pos a hb) [] quotesPos_nil

theorem haremFxStep_pos (code_text : String) (cols : List String)
    (currency : String) {r : RatesDict} (h : QuotesPos r) :
    QuotesPos (haremFxStep code_text cols r currency) := by
  unfold haremFxStep
  split <;> try exact h
  split <;> try exact h
  split <;> try exact h
  rename_i hpos
  exact quotesPos_insert h ⟨hpos.1, hpos.2.1⟩

theorem haremGoldStep_pos (code_text : String) (cols : List String)
    {r : RatesDict} (h : QuotesPos r) :
    QuotesPos (haremGoldStep code_text cols r) := by
  unfold haremGoldStep
  split <;> try exact h
  split <;> try exact h
  split <;> try exact h
  rename_i hpos
  exact quotesPos_insert h
    ⟨lt_trans (by norm_num) hpos.1, lt_trans (by norm_num) hpos.2⟩

theorem haremRow_pos (cols : List String) {r : RatesDict}
    (h : QuotesPos r) : QuotesPos (haremRow r cols) := by
  unfold haremRow
  split
  · exact haremGoldStep_pos _ cols
      (foldl_preserve_mem QuotesPos (haremFxStep _ cols) _
        (fun _ a _ hb => haremFxStep_pos _ cols a hb) r h)
  · exact h

theorem scrape_haremaltin_pos (page : Option (List (List String)))
    (ts : String) : QuotesPos (scrape_haremaltin page ts).rates := by
  cases page with
  | none => exact quotesPos_nil
  | some rows =>
      show QuotesPos (rows.foldl haremRow [])
      exact foldl_preserve_mem QuotesPos haremRow rows
        (fun _ a _ hb => haremRow_pos a hb) [] quotesPos_nil

theorem hakanFxStep_pos (text : String) (currency : String) {r : RatesDict}
    (h : QuotesPos r) : QuotesPos (hakanFxStep text r currency) := by
  unfold hakanFxStep
  dsimp only
  repeat' split
  all_goals first
    | exact h
    | (rename_i hg; exact quotesPos_insert h ⟨hg.1, hg.2.1⟩)

theorem hakanGoldStep_pos (text : String) {r : RatesDict}
    (h : QuotesPos r) : QuotesPos (hakanGoldStep text r) := by
  unfold hakanGoldStep
  dsimp only
  repeat' split
  all_goals first
    | exact h
    | (rename_i hg
       exact quotesPos_insert h
         ⟨lt_trans (by norm_num) hg.1, lt_trans (by norm_num) hg.2⟩)

theorem hakanLi_pos (text : String) {r : RatesDict} (h : QuotesPos r) :
    QuotesPos (hakanLi r text) :=
  hakanGoldStep_pos text
    (foldl_preserve_mem QuotesPos (hakanFxStep text) _
      (fun _ a _ hb => hakanFxStep_pos text a hb) r h)

theorem scrape_hakandoviz_pos (page : Option (List String)) (ts : String) :
    QuotesPos (scrape_hakandoviz page ts).rates := by
  cases page with
  | none => exact quotesPos_nil
  | some lis =>
      show QuotesPos (lis.foldl hakanLi [])
      exact foldl_preserve_mem QuotesPos hakanLi lis
        (fun _ a _ hb => hakanLi_pos a hb) [] quotesPos_nil

theorem carsiRow_pos (cols : List String) {r : RatesDict}
    (h : QuotesPos r) : QuotesPos (carsiRow r cols) := by
  unfold carsiRow
  dsimp only
  repeat' split
  all_goals first
    | exact h
    | (rename_i hg; exact quotesPos_insert h hg)

theorem carsiDivStep_pos (node : DivNode) (entry : String × String)
    {r : RatesDict} (h : QuotesPos r) :
    QuotesPos (carsiDivStep node r entry) := by
  unfold carsiDivStep
  dsimp only
  repeat' split
  all_goals first
    | exact h
    | (rename_i hg; exact quotesPos_insert h hg)

theorem carsiDiv_pos (node : DivNode) {r : RatesDict} (h : QuotesPos r) :
    QuotesPos (carsiDiv r node) :=
  foldl_preserve_mem QuotesPos (carsiDivStep node) _
    (fun _ a _ hb => carsiDivStep_pos node a hb) r h

/-! ## Status and error-message facts -/

theorem finishScrape_source (n u ts : String) (b : Except String RatesDict) :
    (finishScrape n u ts b).source = n := by
  cases b <;> rfl

theorem finishScrape_status (n u ts : String) (b : Except String RatesDict) :
    (finishScrape n u ts b).status = "success" ∨
    (finishScrape n u ts b).status = "error" := by
  cases b with
  | error e => exact Or.inr rfl
  | ok rates =>
      by_cases he : rates.isEmpty
      · right; simp [finishScrape, he]
      · left; simp [finishScrape, he]

theorem finishScrape_error_rates (n u ts : String)
    (b : Except String RatesDict)
    (h : (finishScrape n u ts b).status = "error") :
    (finishScrape n u ts b).rates = [] := by
  cases b with
  | error e => rfl
  | ok rates =>
      by_cases he : rates.isEmpty
      · exact List.isEmpty_iff.mp he
      · exfalso
        simp [finishScrape, he] at h

theorem finishScrape_errmsg (n u ts : String) (b : Except String RatesDict)
    (hb : ∀ e, b = Except.error e → e = "Failed to load page")
    (h : (finishScrape n u ts b).status = "error") :
    (finishScrape n u ts b).error_message = some "Failed to load page" ∨
    (finishScrape n u ts b).error_message = some "No rates found" := by
  cases b with
  | error e => left; rw [hb e rfl]; rfl
  | ok rates =>
      right
      by_cases he : rates.isEmpty
      · simp [finishScrape, he]
      · exfalso
        simp [finishScrape, he] at h

/-- Claim C6's contract at one adapter's boundary: the adapter always
returns a well-formed `SourceRates` (it is a total function, so it cannot
raise), the status is `success` or `error`, a transport/render failure
yields `error` with the cause, every `error` carries a non-empty
`errorDetail`, and any nonempty extraction — however partial — is
`success`. -/
def AdapterBoundary {α : Type} (f : Option α → String → SourceRates) : Prop :=
  ∀ page ts,
    ((f page ts).status = "success" ∨ (f page ts).status = "error") ∧
    (page = none → (f page ts).status = "error" ∧
      (f page ts).error_message = some "Failed to load page") ∧
    ((f page ts).status = "error" →
      ∃ m, (f page ts).error_message = some m ∧ m ≠ "") ∧
    ((f page ts).rates ≠ [] → (f page ts).status = "success")

theorem adapterBoundary_of {α : Type} (n u : String)
    (bf : Option α → Except String RatesDict)
    (hnone : bf none = Except.error "Failed to load page")
    (herr : ∀ page e, bf page = Except.error e → e = "Failed to load page") :
    AdapterBoundary (fun page ts => finishScrape n u ts (bf page)) := by
  intro page ts
  refine ⟨finishScrape_status n u ts (bf page), ?_, ?_, ?_⟩
  · rintro rfl
    dsimp only
    rw [hnone]
    exact ⟨rfl, rfl⟩
  · intro h
    rcases finishScrape_errmsg n u ts (bf page) (herr page) h with h1 | h1
    · exact ⟨_, h1, by decide⟩
    · exact ⟨_, h1, by decide⟩
  · intro hne
    rcases finishScrape_status n u ts (bf page) with hs | hs
    · exact hs
    · exact absurd (finishScrape_error_rates n u ts (bf page) hs) hne

theorem scrape_ahlatci_body_err (page : Option (List (List String)))
    (e : String) (h : scrape_ahlatci_body page = Except.error e) :
    e = "Failed to load page" := by
  cases page with
  | none => injection h with h1; exact h1.symm
  | some rows => exact Except.noConfusion h

theorem scrape_haremaltin_body_err (page : Option (List (List String)))
    (e : String) (h : scrape_haremaltin_body page = Except.error e) :
    e = "Failed to load page" := by
  cases page with
  | none => injection h with h1; exact h1.symm
  | some rows => exact Except.noConfusion h

theorem scrape_hakandoviz_body_err (page : Option (List String))
    (e : String) (h : scrape_hakandoviz_body page = Except.error e) :
    e = "Failed to load page" := by
  cases page with
  | none => injection h with h1; exact h1.symm
  | some lis => exact Except.noConfusion h

theorem scrape_carsidoviz_body_err
    (page : Option (List (List String) × List DivNode)) (e : String)
    (h : scrape_carsidoviz_body page = Except.error e) :
    e = "Failed to load page" := by
  cases page with
  | none => injection h with h1; exact h1.symm
  | some pr => exact Except.noConfusion h

/-! ## Gold sanity bound (Harem Altın and Hakan Döviz) -/

theorem haremFxStep_gold (code_text : String) (cols : List String)
    (currency : String) (hc : currency ≠ "XAU") {r : RatesDict}
    (h : GoldOver100 r) :
    GoldOver100 (haremFxStep code_text cols r currency) := by
  unfold haremFxStep
  repeat' split
  all_goals first
    | exact h
    | exact goldOver100_insert_other h hc

theorem haremGoldStep_gold (code_text : String) (cols : List String)
    {r : RatesDict} (h : GoldOver100 r) :
    GoldOver100 (haremGoldStep code_text cols r) := by
  unfold haremGoldStep
  repeat' split
  all_goals first
    | exact h
    | (rename_i hg; exact goldOver100_insert_xau h hg)

theorem haremRow_gold (cols : List String) {r : RatesDict}
    (h : GoldOver100 r) : GoldOver100 (haremRow r cols) := by
  unfold haremRow
  split
  · refine haremGoldStep_gold _ cols ?_
    refine foldl_preserve_mem GoldOver100 (haremFxStep _ cols) _
      (fun _ a ha hb => haremFxStep_gold _ cols a ?_ hb) r h
    fin_cases ha <;> decide
  · exact h

theorem scrape_haremaltin_gold (page : Option (List (List String)))
    (ts : String) : GoldOver100 (scrape_haremaltin page ts).rates := by
  cases page with
  | none => exact goldOver100_nil
  | some rows =>
      show GoldOver100 (rows.foldl haremRow [])
      exact foldl_preserve_mem GoldOver100 haremRow rows
        (fun _ a _ hb => haremRow_gold a hb) [] goldOver100_nil

theorem hakanFxStep_gold (text : String) (currency : String)
    (hc : (pySplit currency "/").getD 0 "" ≠ "XAU") {r : RatesDict}
    (h : GoldOver100 r) : GoldOver100 (hakanFxStep text r currency) := by
  unfold hakanFxStep
  dsimp only
  repeat' split
  all_goals first
    | exact h
    | exact goldOver100_insert_other h hc

theorem hakanGoldStep_gold (text : String) {r : RatesDict}
    (h : GoldOver100 r) : GoldOver100 (hakanGoldStep text r) := by
  unfold hakanGoldStep
  dsimp only
  repeat' split
  all_goals first
    | exact h
    | (rename_i hg; exact goldOver100_insert_xau h hg)

theorem hakanLi_gold (text : String) {r : RatesDict} (h : GoldOver100 r) :
    GoldOver100 (hakanLi r text) := by
  refine hakanGoldStep_gold text ?_
  refine foldl_preserve_mem GoldOver100 (hakanFxStep text) _
    (fun _ a ha hb => hakanFxStep_gold text a ?_ hb) r h
  fin_cases ha <;> decide

theorem scrape_hakandoviz_gold (page : Option (List String)) (ts : String) :
    GoldOver100 (scrape_hakandoviz page ts).rates := by
  cases page with
  | none => exact goldOver100_nil
  | some lis =>
      show GoldOver100 (lis.foldl hakanLi [])
      exact foldl_preserve_mem GoldOver100 hakanLi lis
        (fun _ a _ hb => hakanLi_gold a hb) [] goldOver100_nil

theorem scrape_carsidoviz_pos
    (page : Option (List (List String) × List DivNode)) (ts : String) :
    QuotesPos (scrape_carsidoviz page ts).rates := by
  cases page with
  | none => exact quotesPos_nil
  | some pr =>
      obtain ⟨rows, divs⟩ := pr
      have h1 : QuotesPos (rows.foldl carsiRow []) :=
        foldl_preserve_mem QuotesPos carsiRow rows
          (fun _ a _ hb => carsiRow_pos a hb) [] quotesPos_nil
      show QuotesPos
        (if (rows.foldl carsiRow []).isEmpty then
          divs.foldl carsiDiv (rows.foldl carsiRow [])
        else rows.foldl carsiRow [])
      split
      · exact foldl_preserve_mem QuotesPos carsiDiv divs
          (fun _ a _ hb => carsiDiv_pos a hb) _ h1
      · exact h1

/-! ## Refresh-cache lemmas -/

/-- A fresh cache hit: the stored value is returned unchanged and the
result does not depend on the orchestration parameter. -/
theorem get_rates_fresh (c : RatesCache) (now : ℚ)
    (orch : Except String (List (Except String SourceRates))) (ts : String)
    (d : AllRatesResponse) (hd : c.data = some d)
    (hfresh : now - c.last_updated < c.cache_duration) :
    get_rates c now orch ts = (Except.ok d, c) := by
  unfold get_rates enterStep
  rw [hd]
  simp [hfresh]

/-- With a refresh in flight and a stored value, every caller is served the
stored value and the cache is untouched, whether or not the value is still
fresh. -/
theorem enterStep_inflight (v : AllRatesResponse) (lu dur t : ℚ) :
    enterStep ⟨some v, lu, dur, true⟩ t =
      (EnterOutcome.served v, ⟨some v, lu, dur, true⟩) := by
  unfold enterStep
  by_cases h : t - lu < dur <;> simp [h]

theorem runEnters_inflight (v : AllRatesResponse) (lu dur : ℚ) :
    ∀ (times : List ℚ),
      runEnters ⟨some v, lu, dur, true⟩ times =
        (⟨some v, lu, dur, true⟩,
          times.map (fun _ => EnterOutcome.served v))
  | [] => rfl
  | t :: rest => by
      simp only [runEnters, enterStep_inflight,
        runEnters_inflight v lu dur rest, List.map]

/-- The first caller that sees a stale value with no refresh in flight
falls through to the orchestration and flips the `updating` flag. -/
theorem enterStep_stale_starts (v : AllRatesResponse) (lu dur t : ℚ)
    (h : ¬ (t - lu < dur)) :
    enterStep ⟨some v, lu, dur, false⟩ t =
      (EnterOutcome.refreshing, ⟨some v, lu, dur, true⟩) := by
  unfold enterStep
  simp [h]

theorem countP_served_map (v : AllRatesResponse) (l : List ℚ) :
    (l.map (fun _ => EnterOutcome.served v)).countP isRefreshing = 0 := by
  induction l with
  | nil => rfl
  | cons a l ih => simp [List.countP_cons, isRefreshing, ih]

/-- When the entry section decides to refresh, the cache it leaves behind
is the input with `updating = True`. -/
theorem enterStep_refreshing_snd (c : RatesCache) (now : ℚ)
    (h : (enterStep c now).1 = EnterOutcome.refreshing) :
    (enterStep c now).2 = { c with updating := true } := by
  unfold enterStep at h ⊢
  cases hc : c.data with
  | some d =>
      rw [hc] at h
      dsimp only at h ⊢
      by_cases h1 : now - c.last_updated < c.cache_duration
      · rw [if_pos h1] at h; exact absurd h (by simp)
      · by_cases h2 : c.updating
        · rw [if_neg h1, if_pos h2] at h; exact absurd h (by simp)
        · rw [if_neg h1, if_neg h2]
  | none => rfl

theorem scrape_ahlatci_source (p : Option (List (List String)))
    (ts : String) : (scrape_ahlatci p ts).source = "Ahlatcı Döviz" :=
  finishScrape_source _ _ _ _

theorem scrape_haremaltin_source (p : Option (List (List String)))
    (ts : String) : (scrape_haremaltin p ts).source = "Harem Altın" :=
  finishScrape_source _ _ _ _

theorem scrape_hakandoviz_source (p : Option (List String)) (ts : String) :
    (scrape_hakandoviz p ts).source = "Hakan Döviz" :=
  finishScrape_source _ _ _ _

theorem scrape_carsidoviz_source
    (p : Option (List (List String) × List DivNode)) (ts : String) :
    (scrape_carsidoviz p ts).source = "Çarşı Döviz" :=
  finishScrape_source _ _ _ _

/-! ## Claims -/

/-- C1, counterexample: with an empty cache (no previous value) and two
concurrent callers arriving while stale with no refresh in flight, BOTH
callers fall through to the orchestration: the gather is started twice and
the second refresh starts while the first is in flight, because the
`updating and data` stale-serving guard is falsy when `data` is `None`.
This refutes the claim's "exactly once ... including when the cache holds
no previous value". -/
theorem c1_counterexample :
    (⟨none, 0, 5, false⟩ : RatesCache).data = none ∧
    runEnters ⟨none, 0, 5, false⟩ [10, 10] =
      (⟨none, 0, 5, true⟩,
        [EnterOutcome.refreshing, EnterOutcome.refreshing]) ∧
    (runEnters ⟨none, 0, 5, false⟩ [10, 10]).2.countP isRefreshing = 2 :=
  ⟨rfl, by decide, by decide⟩

/-- C1, amended: when the cache DOES hold a previous value, single flight
holds: for any number of concurrent callers whose first arrival sees a
stale value with no refresh in flight, exactly one caller starts the
orchestration, every other caller is immediately served the stale value,
the cache afterwards has the refresh flag set, and the refreshing caller's
gather completion returns the freshly assembled response to it. -/
theorem c1_single_flight_amended (v : AllRatesResponse) (lu dur t0 : ℚ)
    (rest : List ℚ) (h0 : ¬ (t0 - lu < dur)) :
    ((runEnters ⟨some v, lu, dur, false⟩ (t0 :: rest)).2.countP isRefreshing
      = 1) ∧
    (∀ o ∈ (runEnters ⟨some v, lu, dur, false⟩ (t0 :: rest)).2,
      o = EnterOutcome.refreshing ∨ o = EnterOutcome.served v) ∧
    ((runEnters ⟨some v, lu, dur, false⟩ (t0 :: rest)).1 =
      ⟨some v, lu, dur, true⟩) ∧
    (∀ results ts2,
      (doRefresh (runEnters ⟨some v, lu, dur, false⟩ (t0 :: rest)).1 t0
        (Except.ok results) ts2).1 = Except.ok (assemble results ts2)) := by
  have hrun : runEnters ⟨some v, lu, dur, false⟩ (t0 :: rest) =
      (⟨some v, lu, dur, true⟩,
        EnterOutcome.refreshing :: rest.map (fun _ => EnterOutcome.served v))
      := by
    simp only [runEnters, enterStep_stale_starts v lu dur t0 h0,
      runEnters_inflight]
  rw [hrun]
  refine ⟨?_, ?_, rfl, ?_⟩
  · simp [List.countP_cons, isRefreshing, countP_served_map]
  · intro o ho
    rcases List.mem_cons.mp ho with rfl | ho
    · exact Or.inl rfl
    · rcases List.mem_map.mp ho with ⟨t, _, rfl⟩
      exact Or.inr rfl
  · intro results ts2; rfl

theorem c1_witness :
    (runEnters ⟨some ⟨[], "t0"⟩, 0, 5, false⟩ [6, 7]).2.countP isRefreshing
      = 1 :=
  (c1_single_flight_amended ⟨[], "t0"⟩ 0 5 6 [7] (by norm_num)).1

/-- C2: for each of the four scrapers and for the result the aggregation
loop synthesizes from a gather exception, status "error" implies the
quotes mapping is empty. -/
theorem c2_error_status_empty_quotes :
    (∀ page ts, (scrape_ahlatci page ts).status = "error" →
      (scrape_ahlatci page ts).rates = []) ∧
    (∀ page ts, (scrape_haremaltin page ts).status = "error" →
      (scrape_haremaltin page ts).rates = []) ∧
    (∀ page ts, (scrape_hakandoviz page ts).status = "error" →
      (scrape_hakandoviz page ts).rates = []) ∧
    (∀ page ts, (scrape_carsidoviz page ts).status = "error" →
      (scrape_carsidoviz page ts).rates = []) ∧
    (∀ ts i msg, (settle ts i (Except.error msg)).status = "error" ∧
      (settle ts i (Except.error msg)).rates = []) := by
  refine ⟨?_, ?_, ?_, ?_, ?_⟩
  · intro page ts h; exact finishScrape_error_rates _ _ _ _ h
  · intro page ts h; exact finishScrape_error_rates _ _ _ _ h
  · intro page ts h; exact finishScrape_error_rates _ _ _ _ h
  · intro page ts h; exact finishScrape_error_rates _ _ _ _ h
  · intro ts i msg; exact ⟨rfl, rfl⟩

theorem c2_witness : (scrape_ahlatci none "t").rates = [] :=
  c2_error_status_empty_quotes.1 none "t" (by decide)

/-- C3: every quote stored in any of the four scrapers' results has
strictly positive buy and sell; candidates failing the sanity check are
never stored. -/
theorem c3_stored_quotes_positive :
    (∀ page ts, ∀ p ∈ (scrape_ahlatci page ts).rates,
      0 < p.2.buy ∧ 0 < p.2.sell) ∧
    (∀ page ts, ∀ p ∈ (scrape_haremaltin page ts).rates,
      0 < p.2.buy ∧ 0 < p.2.sell) ∧
    (∀ page ts, ∀ p ∈ (scrape_hakandoviz page ts).rates,
      0 < p.2.buy ∧ 0 < p.2.sell) ∧
    (∀ page ts, ∀ p ∈ (scrape_carsidoviz page ts).rates,
      0 < p.2.buy ∧ 0 < p.2.sell) :=
  ⟨scrape_ahlatci_pos, scrape_haremaltin_pos, scrape_hakandoviz_pos,
    scrape_carsidoviz_pos⟩

theorem c3_witness : (0 : ℚ) < mkRat 4150 100 ∧ (0 : ℚ) < mkRat 4180 100 :=
  c3_stored_quotes_positive.1 (some [["USD", "41,50", "41,80"]]) "t"
    ("USD", ⟨"USD", mkRat 4150 100, mkRat 4180 100⟩) (by decide)

/-- C4: the assembled response always has exactly one entry per configured
adapter, in the fixed declared source order, for every combination of page
outcomes (so regardless of which adapters failed). -/
theorem c4_fixed_order_four_sources (p1 p2 : Option (List (List String)))
    (p3 : Option (List String))
    (p4 : Option (List (List String) × List DivNode)) (ts : String) :
    (assemble (orchestrate p1 p2 p3 p4 ts) ts).sources.length = 4 ∧
    (assemble (orchestrate p1 p2 p3 p4 ts) ts).sources.map
      (fun s => s.source) = source_names := by
  constructor
  · rfl
  · show [(scrape_ahlatci p1 ts).source, (scrape_haremaltin p2 ts).source,
      (scrape_hakandoviz p3 ts).source, (scrape_carsidoviz p4 ts).source]
      = source_names
    rw [scrape_ahlatci_source, scrape_haremaltin_source,
      scrape_hakandoviz_source, scrape_carsidoviz_source]
    rfl

/-- C5: a call strictly within the TTL of the stored capture returns the
identical cached response and leaves the cache untouched, for EVERY value
of the orchestration parameter — the result's independence from it is the
statement that no orchestration is invoked. -/
theorem c5_fresh_hit_serves_cached (c : RatesCache) (now : ℚ)
    (orch : Except String (List (Except String SourceRates))) (ts : String)
    (d : AllRatesResponse) (hd : c.data = some d)
    (hfresh : now - c.last_updated < c.cache_duration) :
    get_rates c now orch ts = (Except.ok d, c) :=
  get_rates_fresh c now orch ts d hd hfresh

theorem c5_witness :
    get_rates ⟨some ⟨[], "t0"⟩, 0, 5, false⟩ 2 (Except.error "boom") "t1" =
      (Except.ok ⟨[], "t0"⟩, ⟨some ⟨[], "t0"⟩, 0, 5, false⟩) :=
  c5_fresh_hit_serves_cached _ 2 _ _ ⟨[], "t0"⟩ rfl (by norm_num)

/-- C6: every adapter is total at its boundary (it is a Lean function into
`SourceRates`, so no exception can escape), failures become status "error"
with a non-empty errorDetail naming the cause, and a nonempty (even
partial) extraction is status "success". -/
theorem c6_adapters_total_boundary :
    AdapterBoundary scrape_ahlatci ∧ AdapterBoundary scrape_haremaltin ∧
    AdapterBoundary scrape_hakandoviz ∧ AdapterBoundary scrape_carsidoviz :=
  ⟨adapterBoundary_of _ _ scrape_ahlatci_body rfl scrape_ahlatci_body_err,
   adapterBoundary_of _ _ scrape_haremaltin_body rfl
     scrape_haremaltin_body_err,
   adapterBoundary_of _ _ scrape_hakandoviz_body rfl
     scrape_hakandoviz_body_err,
   adapterBoundary_of _ _ scrape_carsidoviz_body rfl
     scrape_carsidoviz_body_err⟩

theorem c6_witness :
    (scrape_ahlatci none "t").status = "error" ∧
    (scrape_ahlatci none "t").error_message = some "Failed to load page" :=
  (c6_adapters_total_boundary.1 none "t").2.1 rfl

/-- C7: the forced-refresh endpoint is `return await get_rates()` with no
invalidation of the capture time, so while the cache is fresh a forced
refresh returns the cached value unchanged and independently of the
orchestration parameter — no new orchestration is triggered, contradicting
both the claim and the endpoint's own "Force refresh" docstring. -/
theorem c7_forced_refresh_serves_cache (c : RatesCache) (now : ℚ)
    (orch : Except String (List (Except String SourceRates))) (ts : String)
    (d : AllRatesResponse) (hd : c.data = some d)
    (hfresh : now - c.last_updated < c.cache_duration) :
    refresh_rates c now orch ts = (Except.ok d, c) :=
  get_rates_fresh c now orch ts d hd hfresh

theorem c7_witness :
    refresh_rates ⟨some ⟨[], "t0"⟩, 1, 5, false⟩ 3 (Except.error "boom") "t2"
      = (Except.ok ⟨[], "t0"⟩, ⟨some ⟨[], "t0"⟩, 1, 5, false⟩) :=
  c7_forced_refresh_serves_cache _ 3 _ _ ⟨[], "t0"⟩ rfl (by norm_num)

/-- C8, counterexample: a catastrophic orchestration failure is propagated
to the caller even though a previous (stale) cached value exists — the
stale value is not served, refuting the claim's fallback clause. -/
theorem c8_counterexample :
    (⟨some ⟨[], "t0"⟩, 0, 5, false⟩ : RatesCache).data = some ⟨[], "t0"⟩ ∧
    ¬ ((10 : ℚ) - 0 < 5) ∧
    get_rates ⟨some ⟨[], "t0"⟩, 0, 5, false⟩ 10 (Except.error "gather failed")
      "t1" =
      (Except.error "gather failed", ⟨some ⟨[], "t0"⟩, 0, 5, false⟩) := by
  refine ⟨rfl, by norm_num, ?_⟩
  norm_num [get_rates, enterStep, doRefresh]

/-- C8, amended: whenever a caller reaches the refresh branch and the
orchestration fails catastrophically, `get_rates` raises the failure to
the caller (HTTP 500) regardless of whether a previous cached value
exists; the only state change is clearing the refresh flag. -/
theorem c8_amended_always_propagates (c : RatesCache) (now : ℚ)
    (e ts : String) (h : (enterStep c now).1 = EnterOutcome.refreshing) :
    get_rates c now (Except.error e) ts =
      (Except.error e, { c with updating := false }) := by
  have h2 := enterStep_refreshing_snd c now h
  unfold get_rates
  rcases he : enterStep c now with ⟨o, c2⟩
  rw [he] at h h2
  dsimp only at h h2
  subst h
  subst h2
  rfl

theorem c8_witness :
    get_rates ⟨none, 0, 5, false⟩ 10 (Except.error "boom") "t1" =
      (Except.error "boom", ⟨none, 0, 5, false⟩) :=
  c8_amended_always_propagates ⟨none, 0, 5, false⟩ 10 "boom" "t1" rfl

/-- C9, counterexample: on the locale-ambiguous token "1.234,56" the
Ahlatcı conversion (wholesale `replace(',', '.')` then `float`) fails to
parse, while the spec's deterministic rule yields 1234.56 — the scraper's
conversion does not agree with the rule. -/
theorem c9_counterexample :
    ahlatciParseNum "1.234,56" = none ∧
    specNormalize "1.234,56" = some (mkRat 123456 100) ∧
    ahlatciParseNum "1.234,56" ≠ specNormalize "1.234,56" :=
  ⟨by decide, by decide, by decide⟩

/-- C9, amended: only the Harem Altın gold conversion implements the
strip-grouping-dots-then-comma-decimal normalization and agrees with the
spec rule on such tokens; the Ahlatcı, Harem FX and Çarşı conversions
replace ',' with '.' wholesale, so a token containing both separators
fails to parse and the candidate quote is discarded. -/
theorem c9_amended_normalization :
    haremGoldParseNum "6.070,20" = specNormalize "6.070,20" ∧
    haremGoldParseNum "6.070,20" = some (mkRat 607020 100) ∧
    ahlatciParseNum "1.234,56" = none ∧
    haremFxParseNum "1.234,56" = none ∧
    carsiParseNum "1.234,56" = none ∧
    specNormalize "1.234,56" = some (mkRat 123456 100) := by
  refine ⟨by decide, by decide, by decide, by decide, by decide, by decide⟩

/-- C10: the gold (XAU) quotes of Harem Altın and Hakan Döviz are stored
only under the stronger sanity bound buy > 100 and sell > 100. -/
theorem c10_gold_sanity_bound :
    (∀ page ts, ∀ p ∈ (scrape_haremaltin page ts).rates,
      p.1 = "XAU" → 100 < p.2.buy ∧ 100 < p.2.sell) ∧
    (∀ page ts, ∀ p ∈ (scrape_hakandoviz page ts).rates,
      p.1 = "XAU" → 100 < p.2.buy ∧ 100 < p.2.sell) :=
  ⟨scrape_haremaltin_gold, scrape_hakandoviz_gold⟩

theorem c10_witness :
    (100 : ℚ) < mkRat 607020 100 ∧ (100 : ℚ) < mkRat 614100 100 :=
  c10_gold_sanity_bound.1 (some [["GOLD TRY", "6.070,20", "6.141,00"]]) "t"
    ("XAU", ⟨"XAU", mkRat 607020 100, mkRat 614100 100⟩) (by decide) rfl

end Kur
